import Mathlib

/-!
# shaolin-ben-don: expiry-aware records, deduplication and the event loop

A shallow embedding of `internal/types/json/progress.go` and of the control
flow of `cmd/bot/main.go`.

Conventions of the embedding.

* `time.Duration` is an `int64` count of nanoseconds; it is embedded as `Int`,
  with the two bounds `minDuration`, `maxDuration` and `wrapInt64` made
  explicit wherever the Go arithmetic can leave the range.
* `time.Time` is embedded as the instant it denotes, an `Int` count of
  nanoseconds since the Unix epoch. Every instant compared in this program is
  either read from the feed with `time.UnixMilli` (no monotonic reading) or is
  compared with such an instant, so Go compares wall-clock instants throughout.
* A method with a pointer receiver is embedded as a function that returns the
  receiver after the call (and the result, when there is one).
-/

namespace ShaolinBenDon

/-! ## Standard library pieces used by the program -/

/-- Go `time.Duration`: an `int64` number of nanoseconds. -/
abbrev Duration := Int

/-- Go `time.Time`, as nanoseconds since the Unix epoch. -/
abbrev Time := Int

/-- Largest `time.Duration`, `1<<63 - 1`. -/
def maxDuration : Duration := 9223372036854775807

/-- Smallest `time.Duration`, `-1 << 63`. -/
def minDuration : Duration := -9223372036854775808

/-- Go `time.Second` in nanoseconds. -/
def Second : Duration := 1000000000

/-- Two's complement wrap-around of an `int64` result. -/
def wrapInt64 (x : Int) : Int :=
  (x + 9223372036854775808) % 18446744073709551616 - 9223372036854775808

/-- Go `t.After(u)`: whether the instant `t` is after `u`. -/
def Time.After (t u : Time) : Bool := decide (u < t)

/-- Go `t.Sub(u)`: the duration `t - u`; when the difference does not fit a
`time.Duration` the maximum (or minimum) duration is returned. -/
def Time.Sub (t u : Time) : Duration :=
  if maxDuration < t - u then maxDuration
  else if t - u < minDuration then minDuration
  else t - u

/-- Go `time.UnixMilli(msec)`: the instant `msec` milliseconds after the epoch. -/
def UnixMilli (msec : Int) : Time := msec * 1000000

/-- Go `sql.NullTime`. -/
structure NullTime where
  Time : Time
  Valid : Bool
  deriving DecidableEq, Repr

/-! ## `internal/types/json/progress.go` -/

/-- Go `typesjson.ProgressItem`. -/
structure ProgressItem where
  Announcement : String
  ExpireDate : NullTime
  GroupId : Int
  InProgress : Bool
  MaxQty : Int
  MaxTotalCost : Int
  OrderHashId : String
  Originator : String
  PasswordLocked : Bool
  RemainSecondBeforeExpire : Duration
  ShopName : String
  Size : Int
  Total : Int
  Unlockable : Bool
  deriving DecidableEq, Repr

namespace ProgressItem

/-- The receiver and the result of `(*ProgressItem).IsExpiring`; the body
assigns to no field. -/
def IsExpiringCall (item : ProgressItem) (priorTime : Duration) : Bool × ProgressItem :=
  (decide (item.RemainSecondBeforeExpire > 0) && decide (item.RemainSecondBeforeExpire ≤ priorTime),
   item)

/-- Result of `(*ProgressItem).IsExpiring`. -/
def IsExpiring (item : ProgressItem) (priorTime : Duration) : Bool :=
  (item.IsExpiringCall priorTime).1

/-- Embedding of `(*ProgressItem).UpdateRemainSecondBeforeExpire`: the receiver after
the call. -/
def UpdateRemainSecondBeforeExpire (item : ProgressItem) (now : Time) : ProgressItem :=
  if !item.ExpireDate.Valid || !item.ExpireDate.Time.After now then
    { item with RemainSecondBeforeExpire := 0 }
  else
    { item with RemainSecondBeforeExpire := item.ExpireDate.Time.Sub now }

/-- The receiver and the result of `(*ProgressItem).IsExpired`; the body
assigns to no field. -/
def IsExpiredCall (item : ProgressItem) : Bool × ProgressItem :=
  (decide (item.RemainSecondBeforeExpire ≤ 0), item)

/-- Result of `(*ProgressItem).IsExpired`. -/
def IsExpired (item : ProgressItem) : Bool :=
  item.IsExpiredCall.1

/-- The state the spec calls Fresh: the remaining time exceeds the window. -/
def IsFresh (item : ProgressItem) (priorWindow : Duration) : Bool :=
  decide (item.RemainSecondBeforeExpire > priorWindow)

end ProgressItem

/-- A record with the given identity, expiration and remaining time and
empty descriptive fields. -/
def mkItem (id : String) (expire : NullTime) (remain : Duration) : ProgressItem :=
  { Announcement := "", ExpireDate := expire, GroupId := 0, InProgress := false,
    MaxQty := 0, MaxTotalCost := 0, OrderHashId := id, Originator := "",
    PasswordLocked := false, RemainSecondBeforeExpire := remain, ShopName := "",
    Size := 0, Total := 0, Unlockable := false }

/-! ### Decoding a feed object -/

/-- Go `time.Time{}`, the zero instant (January 1, year 1, 00:00 UTC). -/
def zeroTime : Time := -62135596800000000000

/-- A JSON object of the feed after lexing: for each key of `ProgressItem`, the
value when the key is present with a non-null value of the right JSON kind,
`none` when the key is absent or null. Numbers are integer literals. -/
structure FeedObject where
  announcement : Option String
  expireDate : Option Int
  groupId : Option Int
  inProgress : Option Bool
  maxQty : Option Int
  maxTotalCost : Option Int
  orderHashId : Option String
  originator : Option String
  passwordLocked : Option Bool
  remainSecondBeforeExpire : Option Int
  shopName : Option String
  size : Option Int
  total : Option Int
  unlockable : Option Bool
  deriving DecidableEq, Repr

/-- Whether an integer literal fits an `int64` (also Go `int` on 64-bit targets). -/
def fitsInt64 (v : Int) : Bool :=
  decide (minDuration ≤ v) && decide (v ≤ maxDuration)

/-- How `json.Unmarshal` stores a number into an `int64` field: an absent or
null key leaves the field as it was, a literal out of range is an error. -/
def decodeInt (value : Option Int) (old : Int) : Except String Int :=
  match value with
  | none => .ok old
  | some v => if fitsInt64 v then .ok v else .error "json: number out of range"

/-- How `json.Unmarshal` stores a number into the `*int64` field of `aux`,
which starts as nil. -/
def decodeIntPtr (value : Option Int) : Except String (Option Int) :=
  match value with
  | none => .ok none
  | some v => if fitsInt64 v then .ok (some v) else .error "json: number out of range"

/-- Embedding of `(*ProgressItem).UnmarshalJSON`: the receiver after a successful
call. `json.Unmarshal` fills `aux`, whose own `ExpireDate *int64` takes the key
`expireDate` and whose embedded alias writes every other key into `item`; then
`ExpireDate` is rebuilt from the pointer and the remaining time is multiplied by
`time.Second` in `int64`. -/
def ProgressItem.UnmarshalJSON (item : ProgressItem) (data : FeedObject) :
    Except String ProgressItem := do
  let auxExpireDate ← decodeIntPtr data.expireDate
  let groupId ← decodeInt data.groupId item.GroupId
  let maxQty ← decodeInt data.maxQty item.MaxQty
  let maxTotalCost ← decodeInt data.maxTotalCost item.MaxTotalCost
  let remain ← decodeInt data.remainSecondBeforeExpire item.RemainSecondBeforeExpire
  let size ← decodeInt data.size item.Size
  let total ← decodeInt data.total item.Total
  let expireDate : NullTime :=
    match auxExpireDate with
    | none => { Time := zeroTime, Valid := false }
    | some msec => { Time := UnixMilli msec, Valid := true }
  return { Announcement := data.announcement.getD item.Announcement
           ExpireDate := expireDate
           GroupId := groupId
           InProgress := data.inProgress.getD item.InProgress
           MaxQty := maxQty
           MaxTotalCost := maxTotalCost
           OrderHashId := data.orderHashId.getD item.OrderHashId
           Originator := data.originator.getD item.Originator
           PasswordLocked := data.passwordLocked.getD item.PasswordLocked
           RemainSecondBeforeExpire := wrapInt64 (remain * Second)
           ShopName := data.shopName.getD item.ShopName
           Size := size
           Total := total
           Unlockable := data.unlockable.getD item.Unlockable }

/-- The zero value of `ProgressItem`, into which a new element is decoded. -/
def zeroItem : ProgressItem :=
  mkItem "" { Time := zeroTime, Valid := false } 0

/-! ## `internal/types/ctrl` (absent from the sources) -/

/-- Modelled from the spec: `ctrl.ReportedItems`, the deduplication tracker of
§4.2, whose source file is missing. `main.go` builds it as
`ReportedItems{Items: make(map[string]bool)}`; the map is kept here as the list
of identities it maps to true. -/
structure ReportedItems where
  Items : List String
  deriving DecidableEq, Repr

namespace ReportedItems

/-- Modelled from the spec: `ExtractUnreported` (missing source), "returns the
subsequence of `batch` whose identities are not yet in the reported set,
preserving input order. Pure read, no mutation." -/
def ExtractUnreported (r : ReportedItems) (batch : List ProgressItem) : List ProgressItem :=
  batch.filter (fun item => !r.Items.contains item.OrderHashId)

/-- Modelled from the spec: `MarkReported` (missing source), "inserts every
identity from `batch` into the reported set (idempotent — re-marking an existing
identity is a no-op)." -/
def MarkReported (r : ReportedItems) (batch : List ProgressItem) : ReportedItems :=
  batch.foldl
    (fun acc item =>
      if acc.Items.contains item.OrderHashId then acc
      else { Items := item.OrderHashId :: acc.Items })
    r

end ReportedItems

/-- Modelled from the spec: `ctrl.PendingItems`, the expiry scheduler of §4.1,
whose source file is missing: the working set (unique identities, latest record
wins) and the configured `priorWindow`. The timer behind `Chan()` is outside the
embedding. -/
structure PendingItems where
  items : List ProgressItem
  priorTime : Duration
  deriving DecidableEq, Repr

namespace PendingItems

/-- Modelled from the spec: `ctrl.NewPendingItems(priorTime)` (missing source),
an empty working set. -/
def NewPendingItems (priorTime : Duration) : PendingItems :=
  { items := [], priorTime := priorTime }

/-- Insert a record, or overwrite the stored record of the same identity. -/
def put (item : ProgressItem) (items : List ProgressItem) : List ProgressItem :=
  if items.any (fun x => x.OrderHashId == item.OrderHashId) then
    items.map (fun x => if x.OrderHashId == item.OrderHashId then item else x)
  else items ++ [item]

/-- Modelled from the spec: `Update` (missing source), "merges the batch into the
working set, inserting new identities and overwriting the stored Record for
identities already present (latest fetch wins). Does not remove identities
absent from the batch". -/
def Update (p : PendingItems) (batch : List ProgressItem) : PendingItems :=
  { p with items := batch.foldl (fun acc item => put item acc) p.items }

/-- Modelled from the spec: `UpdateRemainSecondBeforeExpireValues` (missing
source; `RefreshRemaining` in the spec), "recomputes `remaining` for every record
currently held, using `now` as the evaluation instant". The instant is the
clock reading taken inside the call. -/
def UpdateRemainSecondBeforeExpireValues (p : PendingItems) (now : Time) : PendingItems :=
  { p with items := p.items.map (fun item => item.UpdateRemainSecondBeforeExpire now) }

/-- Modelled from the spec: `ExtractExpiringItems` (missing source;
`ExtractExpiring` in the spec), "removes and returns ... every record currently
satisfying `isExpiring`". -/
def ExtractExpiringItems (p : PendingItems) : List ProgressItem × PendingItems :=
  (p.items.filter (fun item => item.IsExpiring p.priorTime),
   { p with items := p.items.filter (fun item => !item.IsExpiring p.priorTime) })

end PendingItems

/-! ## `cmd/bot/main.go` -/

/-- Embedding of `fetchItems`: `fetched` is the batch the external fetch (or the mock
file) returned; the result is `reports`, `items` and the reported set after the
call. -/
def fetchItems (reported : ReportedItems) (fetched : List ProgressItem) :
    List ProgressItem × List ProgressItem × ReportedItems :=
  let items := fetched
  let reports := reported.ExtractUnreported items
  let reported := reported.MarkReported items
  (reports, items, reported)

/-- The `reports` results of successive `fetchItems` calls, one per fetched
batch, threading the reported set. -/
def runFetches (reported : ReportedItems) : List (List ProgressItem) → List (List ProgressItem)
  | [] => []
  | batch :: rest =>
    (fetchItems reported batch).1 :: runFetches (fetchItems reported batch).2.2 rest

/-- The three methods of `pendingItems` the event loop calls, over any state
type; `UpdateRemainSecondBeforeExpireValues` also receives the clock reading it
takes. -/
structure PendingOps (σ : Type) where
  Update : σ → List ProgressItem → σ
  UpdateRemainSecondBeforeExpireValues : σ → Time → σ
  ExtractExpiringItems : σ → List ProgressItem × σ

/-- The operations of the spec-modelled `PendingItems`. -/
def specOps : PendingOps PendingItems :=
  { Update := PendingItems.Update
    UpdateRemainSecondBeforeExpireValues := PendingItems.UpdateRemainSecondBeforeExpireValues
    ExtractExpiringItems := PendingItems.ExtractExpiringItems }

/-- A call the event loop makes on `pendingItems` or to `broadcast`, with the
batch passed or returned. -/
inductive Call where
  | refresh (now : Time)
  | update (batch : List ProgressItem)
  | extract (result : List ProgressItem)
  | broadcast (items : List ProgressItem)
  deriving DecidableEq, Repr

/-- State of the goroutine running the event loop. -/
structure LoopState (σ : Type) where
  subscription : List Int
  reported : ReportedItems
  pendingItems : σ
  trace : List Call

/-- The event a `select` receives; an update carries the batch a fetch returns
at that moment, a wake-up of `pendingItems.Chan()` the clock reading of the
refresh in its branch. -/
inductive Event where
  | subscribe (chatId : Int)
  | unsubscribe (chatId : Int)
  | updateCmd (fetched : List ProgressItem)
  | updateInterval (fetched : List ProgressItem)
  | pendingChan (now : Time)
  | heartbeat
  deriving DecidableEq, Repr

/-- Embedding of the closure `updateFunc`. -/
def updateFunc {σ : Type} (ops : PendingOps σ) (s : LoopState σ)
    (fetched : List ProgressItem) : LoopState σ :=
  if s.subscription.length == 0 then s
  else
    let (reports, all, reported) := fetchItems s.reported fetched
    let s1 : LoopState σ :=
      { s with reported := reported
               pendingItems := ops.Update s.pendingItems all
               trace := s.trace ++ [Call.update all] }
    if reports.length > 0 then
      let extracted := ops.ExtractExpiringItems s1.pendingItems
      { s1 with pendingItems := extracted.2
                trace := s1.trace ++ [Call.broadcast reports, Call.extract extracted.1] }
    else s1

/-- One iteration of the `for` loop of `main`: the refresh at its top, read at
`now`, then the branch of the `select` taken for `ev`. -/
def loopIteration {σ : Type} (ops : PendingOps σ) (s : LoopState σ) (now : Time)
    (ev : Event) : LoopState σ :=
  let s0 : LoopState σ :=
    { s with pendingItems := ops.UpdateRemainSecondBeforeExpireValues s.pendingItems now
             trace := s.trace ++ [Call.refresh now] }
  match ev with
  | .subscribe chatId =>
    { s0 with subscription :=
        if s0.subscription.contains chatId then s0.subscription
        else chatId :: s0.subscription }
  | .unsubscribe chatId =>
    { s0 with subscription := s0.subscription.filter (fun c => c != chatId) }
  | .updateCmd fetched => updateFunc ops s0 fetched
  | .updateInterval fetched => updateFunc ops s0 fetched
  | .pendingChan now2 =>
    let refreshed := ops.UpdateRemainSecondBeforeExpireValues s0.pendingItems now2
    let extracted := ops.ExtractExpiringItems refreshed
    { s0 with pendingItems := extracted.2
              trace := s0.trace ++
                [Call.refresh now2, Call.extract extracted.1, Call.broadcast extracted.1] }
  | .heartbeat => s0

/-- The event loop over a finite run of iterations. -/
def runLoop {σ : Type} (ops : PendingOps σ) (s : LoopState σ) :
    List (Time × Event) → LoopState σ
  | [] => s
  | (now, ev) :: rest => runLoop ops (loopIteration ops s now ev) rest

/-- Whether, in a trace, every extraction with a non-empty result is at once
followed by a `broadcast` of that result. -/
def extractsAreBroadcast : List Call → Bool
  | [] => true
  | Call.extract result :: rest =>
    (result.isEmpty || decide (rest.head? = some (Call.broadcast result))) &&
      extractsAreBroadcast rest
  | _ :: rest => extractsAreBroadcast rest

/-- Whether, in a trace, every extraction is preceded by a refresh with no
`Update` in between; `fresh` tells whether that holds at the start. -/
def extractsAreRefreshed (fresh : Bool) : List Call → Bool
  | [] => true
  | Call.refresh _ :: rest => extractsAreRefreshed true rest
  | Call.update _ :: rest => extractsAreRefreshed false rest
  | Call.extract _ :: rest => fresh && extractsAreRefreshed fresh rest
  | Call.broadcast _ :: rest => extractsAreRefreshed fresh rest

/-! ## Concrete inputs used by the witnesses and counterexamples -/

/-- A window of five minutes, the `PriorTime` of the examples. -/
def fiveMinutes : Duration := 300000000000

/-- The instant of the examples, 2023-11-14 22:13:20 UTC. -/
def exampleNow : Time := 1700000000000000000

/-- A feed object for the order `X`, expiring 60 seconds after `exampleNow`, with
the given `remainSecondBeforeExpire` and no other key. -/
def feedX (remain : Option Int) : FeedObject :=
  { announcement := none, expireDate := some 1700000060000, groupId := none,
    inProgress := none, maxQty := none, maxTotalCost := none, orderHashId := some "X",
    originator := none, passwordLocked := none, remainSecondBeforeExpire := remain,
    shopName := none, size := none, total := none, unlockable := none }

/-- The record decoded from `feedX` with the given remaining time. -/
def itemX (remain : Duration) : ProgressItem :=
  mkItem "X" { Time := exampleNow + 60 * Second, Valid := true } remain

/-- A record `Y` expiring one hour after `exampleNow`. -/
def itemY : ProgressItem :=
  mkItem "Y" { Time := exampleNow + 3600 * Second, Valid := true } (3600 * Second)

/-- A loop state with one subscriber, the spec-modelled working set `items`
and an empty trace. -/
def exampleState (reported : List String) (items : List ProgressItem) :
    LoopState PendingItems :=
  { subscription := [1], reported := { Items := reported },
    pendingItems := { items := items, priorTime := fiveMinutes }, trace := [] }

/-! ## Theorems -/

/-- C3: `IsExpiring(priorTime)` is true exactly when
`0 < RemainSecondBeforeExpire ≤ priorTime`, and `IsExpired()` is true exactly
when `RemainSecondBeforeExpire ≤ 0`, for every record and every `priorTime`
of any sign. -/
theorem C3_isExpiring_isExpired_iff (item : ProgressItem) (priorTime : Duration) :
    (item.IsExpiring priorTime = true ↔
        (0 < item.RemainSecondBeforeExpire ∧ item.RemainSecondBeforeExpire ≤ priorTime)) ∧
    (item.IsExpired = true ↔ item.RemainSecondBeforeExpire ≤ 0) := by
  simp [ProgressItem.IsExpiring, ProgressItem.IsExpiringCall, ProgressItem.IsExpired,
    ProgressItem.IsExpiredCall]

/-- C4, refuted as stated: a record whose expiration is valid and strictly after
`now`, yet more than the largest `time.Duration` away, is left with the largest
duration, not with the exact difference `expireAt − now`. -/
theorem C4_exact_difference_fails :
    (mkItem "A" { Time := 9223372036854775812, Valid := true } 0).ExpireDate.Valid = true ∧
    (0 : Time) < (mkItem "A" { Time := 9223372036854775812, Valid := true } 0).ExpireDate.Time ∧
    ((mkItem "A" { Time := 9223372036854775812, Valid := true } 0).UpdateRemainSecondBeforeExpire
        0).RemainSecondBeforeExpire = 9223372036854775807 ∧
    ((mkItem "A" { Time := 9223372036854775812, Valid := true } 0).UpdateRemainSecondBeforeExpire
        0).RemainSecondBeforeExpire ≠
      (mkItem "A" { Time := 9223372036854775812, Valid := true } 0).ExpireDate.Time - 0 := by
  decide

/-- C4, amended: after `UpdateRemainSecondBeforeExpire(now)` the remaining time is
`expireAt − now` capped at the largest `time.Duration` when `ExpireDate` is valid
and strictly after `now`, and 0 otherwise; it is never negative and does not
depend on the previous value of the field. -/
theorem C4_remaining_after_update (item : ProgressItem) (now : Time) :
    (item.UpdateRemainSecondBeforeExpire now).RemainSecondBeforeExpire =
        (if item.ExpireDate.Valid = true ∧ now < item.ExpireDate.Time then
           min (item.ExpireDate.Time - now) maxDuration
         else 0) ∧
    0 ≤ (item.UpdateRemainSecondBeforeExpire now).RemainSecondBeforeExpire ∧
    ∀ previous : Duration,
      ({ item with RemainSecondBeforeExpire := previous }.UpdateRemainSecondBeforeExpire
          now).RemainSecondBeforeExpire =
        (item.UpdateRemainSecondBeforeExpire now).RemainSecondBeforeExpire := by
  have hsub : 0 < item.ExpireDate.Time - now →
      Time.Sub item.ExpireDate.Time now = min (item.ExpireDate.Time - now) maxDuration ∧
      0 ≤ Time.Sub item.ExpireDate.Time now := by
    intro hpos
    simp only [Time.Sub, maxDuration, minDuration, Time, Duration] at *
    split_ifs <;> constructor <;> omega
  refine ⟨?_, ?_, ?_⟩
  · unfold ProgressItem.UpdateRemainSecondBeforeExpire Time.After
    by_cases hv : item.ExpireDate.Valid = true <;> by_cases ht : now < item.ExpireDate.Time
    · have hpos : 0 < item.ExpireDate.Time - now := by
        simp only [Time] at *; omega
      simp [hv, ht, (hsub hpos).1]
    · simp [hv, ht]
    · simp [hv, ht]
    · simp [hv, ht]
  · unfold ProgressItem.UpdateRemainSecondBeforeExpire Time.After
    by_cases hv : item.ExpireDate.Valid = true <;> by_cases ht : now < item.ExpireDate.Time
    · have hpos : 0 < item.ExpireDate.Time - now := by
        simp only [Time] at *; omega
      simp [hv, ht, (hsub hpos).2]
    · simp [hv, ht]
    · simp [hv, ht]
    · simp [hv, ht]
  · intro previous
    unfold ProgressItem.UpdateRemainSecondBeforeExpire
    split_ifs <;> rfl

/-- C5, refuted as stated: with `priorWindow = 0` the record expiring at
`now + priorWindow` is not expiring after the refresh, and with `priorWindow`
the largest `time.Duration` the record expiring at `now + priorWindow + 1s` is
expiring after the refresh. -/
theorem C5_window_boundary_fails :
    (({ zeroItem with ExpireDate := { Time := 1000 + 0, Valid := true } }
        ).UpdateRemainSecondBeforeExpire 1000).IsExpiring 0 = false ∧
    (({ zeroItem with ExpireDate := { Time := 1000 + maxDuration + Second, Valid := true } }
        ).UpdateRemainSecondBeforeExpire 1000).IsExpiring maxDuration = true := by
  decide

/-- C5, amended: for every `now` and every `priorWindow` below the largest
`time.Duration`, the record expiring at `now + priorWindow + 1s` is not expiring
after the refresh at `now`; and for every `priorWindow > 0` (up to the largest
duration) the record expiring at `now + priorWindow` is expiring after it. -/
theorem C5_window_boundary (item : ProgressItem) (now : Time) (priorWindow : Duration)
    (hmax : priorWindow ≤ maxDuration) :
    (priorWindow < maxDuration →
      (({ item with ExpireDate := { Time := now + priorWindow + Second, Valid := true } }
          ).UpdateRemainSecondBeforeExpire now).IsExpiring priorWindow = false) ∧
    (0 < priorWindow →
      (({ item with ExpireDate := { Time := now + priorWindow, Valid := true } }
          ).UpdateRemainSecondBeforeExpire now).IsExpiring priorWindow = true) := by
  constructor
  · intro hlt
    have hafter : Time.After (now + priorWindow + Second) now =
        decide (0 < priorWindow + Second) := by
      simp only [Time.After, Time, Duration, Second]
      congr 1
      apply propext
      constructor <;> intro h <;> omega
    have hsub : 0 < priorWindow + Second →
        priorWindow < Time.Sub (now + priorWindow + Second) now := by
      intro hpos
      simp only [Time.Sub, maxDuration, minDuration, Time, Duration, Second] at *
      split_ifs <;> omega
    simp only [ProgressItem.UpdateRemainSecondBeforeExpire, ProgressItem.IsExpiring,
      ProgressItem.IsExpiringCall, Bool.not_true, Bool.false_or, hafter]
    by_cases hpos : 0 < priorWindow + Second
    · have := hsub hpos
      simp only [hpos, decide_True, Bool.not_true, Bool.false_eq_true, if_false,
        Bool.and_eq_false_iff, decide_eq_false_iff_not]
      right
      simp only [Time, Duration] at *
      omega
    · simp [hpos]
  · intro hpos
    have hafter : Time.After (now + priorWindow) now = true := by
      simp only [Time.After, Time, Duration, decide_eq_true_eq] at *
      omega
    have hsub : Time.Sub (now + priorWindow) now = priorWindow := by
      simp only [Time.Sub, maxDuration, minDuration, Time, Duration] at *
      split_ifs <;> omega
    simp only [ProgressItem.UpdateRemainSecondBeforeExpire, ProgressItem.IsExpiring,
      ProgressItem.IsExpiringCall, Bool.not_true, Bool.false_or, hafter, hsub,
      Bool.false_eq_true, if_false, Bool.and_eq_true, decide_eq_true_eq]
    simp only [Time, Duration] at *
    omega

/-- Witness of C5 at `now = 1000` and a window of five minutes. -/
theorem C5_window_boundary_witness :
    (300000000000 : Duration) ≤ maxDuration ∧
    (({ zeroItem with ExpireDate := { Time := 1000 + 300000000000 + Second, Valid := true } }
        ).UpdateRemainSecondBeforeExpire 1000).IsExpiring 300000000000 = false ∧
    (({ zeroItem with ExpireDate := { Time := 1000 + 300000000000, Valid := true } }
        ).UpdateRemainSecondBeforeExpire 1000).IsExpiring 300000000000 = true :=
  ⟨by decide,
   (C5_window_boundary zeroItem 1000 300000000000 (by decide)).1 (by decide),
   (C5_window_boundary zeroItem 1000 300000000000 (by decide)).2 (by decide)⟩

/-- C6: a record whose expiration is absent or not after `now` has, after
`UpdateRemainSecondBeforeExpire(now)`, remaining time 0, `IsExpired()` true and
`IsExpiring(priorWindow)` false for every `priorWindow`. -/
theorem C6_absent_or_past_never_expiring (item : ProgressItem) (now : Time)
    (priorWindow : Duration)
    (h : item.ExpireDate.Valid = false ∨ item.ExpireDate.Time ≤ now) :
    (item.UpdateRemainSecondBeforeExpire now).RemainSecondBeforeExpire = 0 ∧
    (item.UpdateRemainSecondBeforeExpire now).IsExpired = true ∧
    (item.UpdateRemainSecondBeforeExpire now).IsExpiring priorWindow = false := by
  have hcond : (!item.ExpireDate.Valid || !item.ExpireDate.Time.After now) = true := by
    rcases h with h | h
    · simp [h]
    · simp [Time.After, h]
  unfold ProgressItem.UpdateRemainSecondBeforeExpire
  rw [if_pos hcond]
  simp [ProgressItem.IsExpired, ProgressItem.IsExpiredCall, ProgressItem.IsExpiring,
    ProgressItem.IsExpiringCall]

/-- Witness of C6: a record that expired one second before `now`. -/
theorem C6_absent_or_past_never_expiring_witness :
    ((mkItem "B" { Time := 5000000000 - Second, Valid := true } 7).UpdateRemainSecondBeforeExpire
        5000000000).RemainSecondBeforeExpire = 0 ∧
    ((mkItem "B" { Time := 5000000000 - Second, Valid := true } 7).UpdateRemainSecondBeforeExpire
        5000000000).IsExpired = true ∧
    ((mkItem "B" { Time := 5000000000 - Second, Valid := true } 7).UpdateRemainSecondBeforeExpire
        5000000000).IsExpiring 300000000000 = false :=
  C6_absent_or_past_never_expiring
    (mkItem "B" { Time := 5000000000 - Second, Valid := true } 7) 5000000000 300000000000
    (Or.inr (by decide))

/-- C7, refuted as stated: with the negative window `-1`, a record with
remaining time 0 is both Fresh and Expired. -/
theorem C7_two_states_at_negative_window :
    (mkItem "A" { Time := 0, Valid := false } 0).IsFresh (-1) = true ∧
    (mkItem "A" { Time := 0, Valid := false } 0).IsExpired = true := by
  decide

/-- C7, amended: for every record and every `priorWindow ≥ 0`, exactly one of
Fresh, Expiring, Expired holds. -/
theorem C7_exactly_one_state (item : ProgressItem) (priorWindow : Duration)
    (hwin : 0 ≤ priorWindow) :
    (item.IsFresh priorWindow = true ∧ item.IsExpiring priorWindow = false ∧
        item.IsExpired = false) ∨
    (item.IsFresh priorWindow = false ∧ item.IsExpiring priorWindow = true ∧
        item.IsExpired = false) ∨
    (item.IsFresh priorWindow = false ∧ item.IsExpiring priorWindow = false ∧
        item.IsExpired = true) := by
  simp only [ProgressItem.IsFresh, ProgressItem.IsExpiring, ProgressItem.IsExpiringCall,
    ProgressItem.IsExpired, ProgressItem.IsExpiredCall, decide_eq_true_eq, decide_eq_false_iff_not,
    Bool.and_eq_true, Bool.and_eq_false_iff, Duration] at *
  omega

/-- Witness of C7: a record with 60s left and a window of five minutes is
Expiring and in no other state. -/
theorem C7_exactly_one_state_witness :
    (0 : Duration) ≤ 300000000000 ∧
    (((mkItem "A" { Time := 0, Valid := false } 60000000000).IsFresh 300000000000 = true ∧
        (mkItem "A" { Time := 0, Valid := false } 60000000000).IsExpiring 300000000000 = false ∧
        (mkItem "A" { Time := 0, Valid := false } 60000000000).IsExpired = false) ∨
     ((mkItem "A" { Time := 0, Valid := false } 60000000000).IsFresh 300000000000 = false ∧
        (mkItem "A" { Time := 0, Valid := false } 60000000000).IsExpiring 300000000000 = true ∧
        (mkItem "A" { Time := 0, Valid := false } 60000000000).IsExpired = false) ∨
     ((mkItem "A" { Time := 0, Valid := false } 60000000000).IsFresh 300000000000 = false ∧
        (mkItem "A" { Time := 0, Valid := false } 60000000000).IsExpiring 300000000000 = false ∧
        (mkItem "A" { Time := 0, Valid := false } 60000000000).IsExpired = true)) :=
  ⟨by decide,
   C7_exactly_one_state (mkItem "A" { Time := 0, Valid := false } 60000000000) 300000000000
     (by decide)⟩

/-- C10: `UpdateRemainSecondBeforeExpire(now)` leaves `ExpireDate`, `OrderHashId`
and every descriptive field as they were, and `IsExpiring` and `IsExpired`
leave the whole record as it was. -/
theorem C10_frame (item : ProgressItem) (now : Time) (priorTime : Duration) :
    ((item.UpdateRemainSecondBeforeExpire now).ExpireDate = item.ExpireDate ∧
     (item.UpdateRemainSecondBeforeExpire now).OrderHashId = item.OrderHashId ∧
     (item.UpdateRemainSecondBeforeExpire now).Announcement = item.Announcement ∧
     (item.UpdateRemainSecondBeforeExpire now).ShopName = item.ShopName ∧
     (item.UpdateRemainSecondBeforeExpire now).Originator = item.Originator ∧
     (item.UpdateRemainSecondBeforeExpire now).GroupId = item.GroupId ∧
     (item.UpdateRemainSecondBeforeExpire now).MaxQty = item.MaxQty ∧
     (item.UpdateRemainSecondBeforeExpire now).MaxTotalCost = item.MaxTotalCost ∧
     (item.UpdateRemainSecondBeforeExpire now).Size = item.Size ∧
     (item.UpdateRemainSecondBeforeExpire now).Total = item.Total ∧
     (item.UpdateRemainSecondBeforeExpire now).InProgress = item.InProgress ∧
     (item.UpdateRemainSecondBeforeExpire now).PasswordLocked = item.PasswordLocked ∧
     (item.UpdateRemainSecondBeforeExpire now).Unlockable = item.Unlockable) ∧
    (item.IsExpiringCall priorTime).2 = item ∧
    item.IsExpiredCall.2 = item := by
  refine ⟨?_, rfl, rfl⟩
  unfold ProgressItem.UpdateRemainSecondBeforeExpire
  split_ifs <;> simp

/-! ### Decoding -/

/-- C9, refuted as stated: two feed objects that differ only in
`remainSecondBeforeExpire` (1 and 2) decode to records whose
`RemainSecondBeforeExpire` differ (one and two seconds). -/
theorem C9_decoded_remaining_follows_feed :
    feedX (some 2) = { feedX (some 1) with remainSecondBeforeExpire := some 2 } ∧
    zeroItem.UnmarshalJSON (feedX (some 1)) = Except.ok (itemX 1000000000) ∧
    zeroItem.UnmarshalJSON (feedX (some 2)) = Except.ok (itemX 2000000000) ∧
    (itemX 1000000000).RemainSecondBeforeExpire ≠ (itemX 2000000000).RemainSecondBeforeExpire := by
  refine ⟨rfl, ?_, ?_, by decide⟩ <;> rfl

/-- C9, amended: `UnmarshalJSON` stores the feed's `remainSecondBeforeExpire`
multiplied by `time.Second` (in `int64`); two feed objects that differ only in
that value decode to records that become equal, remaining time included, once
`UpdateRemainSecondBeforeExpire(now)` has been applied. -/
theorem C9_remaining_recomputed_on_update (item : ProgressItem) (data : FeedObject)
    (v1 v2 : Int) (now : Time) (h1 : fitsInt64 v1 = true) (h2 : fitsInt64 v2 = true) :
    (item.UnmarshalJSON { data with remainSecondBeforeExpire := some v1 }).map
        (fun r => r.RemainSecondBeforeExpire) =
      (item.UnmarshalJSON { data with remainSecondBeforeExpire := some v1 }).map
        (fun _ => wrapInt64 (v1 * Second)) ∧
    (item.UnmarshalJSON { data with remainSecondBeforeExpire := some v1 }).map
        (fun r => r.UpdateRemainSecondBeforeExpire now) =
      (item.UnmarshalJSON { data with remainSecondBeforeExpire := some v2 }).map
        (fun r => r.UpdateRemainSecondBeforeExpire now) := by
  simp only [ProgressItem.UnmarshalJSON, decodeInt, h1, h2, if_true, bind, Except.bind, pure,
    Except.pure]
  cases decodeIntPtr data.expireDate <;> simp only [Except.map, and_self]
  cases data.groupId <;> cases data.maxQty <;> cases data.maxTotalCost <;>
    cases data.size <;> cases data.total <;>
    simp only [Except.map, and_self] <;>
    (try split_ifs) <;>
    simp only [Except.map, and_self, true_and, Except.ok.injEq,
      ProgressItem.UpdateRemainSecondBeforeExpire]

/-- Witness of C9 on the feed object of order `X`, with the values 1 and 2. -/
theorem C9_remaining_recomputed_on_update_witness :
    fitsInt64 1 = true ∧ fitsInt64 2 = true ∧
    zeroItem.UnmarshalJSON (feedX (some 1)) = Except.ok (itemX 1000000000) ∧
    (zeroItem.UnmarshalJSON { feedX none with remainSecondBeforeExpire := some 1 }).map
        (fun r => r.RemainSecondBeforeExpire) =
      (zeroItem.UnmarshalJSON { feedX none with remainSecondBeforeExpire := some 1 }).map
        (fun _ => wrapInt64 (1 * Second)) ∧
    (zeroItem.UnmarshalJSON { feedX none with remainSecondBeforeExpire := some 1 }).map
        (fun r => r.UpdateRemainSecondBeforeExpire exampleNow) =
      (zeroItem.UnmarshalJSON { feedX none with remainSecondBeforeExpire := some 2 }).map
        (fun r => r.UpdateRemainSecondBeforeExpire exampleNow) :=
  ⟨by decide, by decide, rfl,
   C9_remaining_recomputed_on_update zeroItem (feedX none) 1 2 exampleNow (by decide) (by decide)⟩

/-! ### Deduplication -/

/-- `MarkReported` keeps every identity already in the reported set. -/
theorem markReported_keeps (batch : List ProgressItem) (r : ReportedItems) (id : String)
    (h : id ∈ r.Items) : id ∈ (r.MarkReported batch).Items := by
  induction batch generalizing r with
  | nil => exact h
  | cons item rest ih =>
    simp only [ReportedItems.MarkReported, List.foldl_cons]
    apply ih
    split_ifs
    · exact h
    · exact List.mem_cons_of_mem _ h

/-- `MarkReported` puts the identity of every record of the batch in the
reported set. -/
theorem markReported_marks (batch : List ProgressItem) (r : ReportedItems) (x : ProgressItem)
    (h : x ∈ batch) : x.OrderHashId ∈ (r.MarkReported batch).Items := by
  induction batch generalizing r with
  | nil => cases h
  | cons item rest ih =>
    rcases List.mem_cons.mp h with hx | hx
    · subst hx
      simp only [ReportedItems.MarkReported, List.foldl_cons]
      apply markReported_keeps
      split_ifs with hc
      · simpa using hc
      · exact List.mem_cons_self _ _
    · simp only [ReportedItems.MarkReported, List.foldl_cons]
      exact ih _ hx

/-- `ExtractUnreported` returns only records whose identity is not reported. -/
theorem extractUnreported_not_reported (r : ReportedItems) (batch : List ProgressItem)
    (y : ProgressItem) (h : y ∈ r.ExtractUnreported batch) : y.OrderHashId ∉ r.Items := by
  simp only [ReportedItems.ExtractUnreported, List.mem_filter] at h
  simpa using h.2

/-- No `reports` of a run of fetches holds an identity reported before the run. -/
theorem runFetches_not_reported (batches : List (List ProgressItem)) (r : ReportedItems)
    (j : Nat) (y : ProgressItem) (h : y ∈ (runFetches r batches).getD j []) :
    y.OrderHashId ∉ r.Items := by
  induction batches generalizing r j with
  | nil => simp [runFetches] at h
  | cons batch rest ih =>
    cases j with
    | zero =>
      simp only [runFetches, List.getD_cons_zero, fetchItems] at h
      exact extractUnreported_not_reported r batch y h
    | succ j =>
      simp only [runFetches, List.getD_cons_succ, fetchItems] at h
      intro hmem
      exact ih _ j h (markReported_keeps batch r _ hmem)

/-- C1 (over the spec-modelled tracker): in a run of `fetchItems` calls from any
reported set, an identity that occurred in an earlier batch is in no later
`reports`; and when two consecutive fetches return the same batch, the second
`reports` is empty. -/
theorem C1_seen_identity_never_reported_again (reported : ReportedItems)
    (batches : List (List ProgressItem)) :
    (∀ (i j : Nat) (x y : ProgressItem), i < j → x ∈ batches.getD i [] →
        y ∈ (runFetches reported batches).getD j [] → y.OrderHashId ≠ x.OrderHashId) ∧
    (∀ batch : List ProgressItem,
        (fetchItems (fetchItems reported batch).2.2 batch).1 = []) := by
  constructor
  · induction batches generalizing reported with
    | nil =>
      intro i j x y _ hx
      simp at hx
    | cons batch rest ih =>
      intro i j x y hij hx hy
      cases j with
      | zero => omega
      | succ j =>
        simp only [runFetches, List.getD_cons_succ] at hy
        cases i with
        | zero =>
          simp only [List.getD_cons_zero] at hx
          have hnot := runFetches_not_reported rest _ j y hy
          intro heq
          apply hnot
          rw [heq]
          exact markReported_marks batch reported x hx
        | succ i =>
          simp only [List.getD_cons_succ] at hx
          exact ih _ i j x y (by omega) hx hy
  · intro batch
    simp only [fetchItems, ReportedItems.ExtractUnreported, List.filter_eq_nil_iff]
    intro x hx
    have := markReported_marks batch reported x hx
    simpa using this

/-- Witness of C1 on the batches `[X]`, `[X, Y]`, `[Y]` from an empty reported
set: `X` is in the first batch and not in the second `reports`, which is `[Y]`. -/
theorem C1_seen_identity_never_reported_again_witness :
    ((0 : Nat) < 1 ∧
      itemX 0 ∈ [[itemX 0], [itemX 0, itemY], [itemY]].getD 0 [] ∧
      itemY ∈ (runFetches { Items := [] } [[itemX 0], [itemX 0, itemY], [itemY]]).getD 1 []) ∧
    itemY.OrderHashId ≠ (itemX 0).OrderHashId ∧
    (fetchItems (fetchItems { Items := [] } [itemX 0]).2.2 [itemX 0]).1 = [] :=
  ⟨⟨by decide, by decide, by decide⟩,
   (C1_seen_identity_never_reported_again { Items := [] }
      [[itemX 0], [itemX 0, itemY], [itemY]]).1 0 1 (itemX 0) itemY
      (by decide) (by decide) (by decide),
   (C1_seen_identity_never_reported_again { Items := [] }
      [[itemX 0], [itemX 0, itemY], [itemY]]).2 [itemX 0]⟩

/-! ### The event loop -/

/-- C2, refuted as stated: with `X` already reported and inside the window, an
update that fetches the new record `Y` and `X` broadcasts `[Y]`, then extracts
`[X]`, and the loop iteration ends without a `broadcast` of `[X]`. -/
theorem C2_updateFunc_discards_extraction :
    (loopIteration specOps (exampleState ["X"] [itemX (60 * Second)]) exampleNow
        (Event.updateCmd [itemY, itemX (60 * Second)])).trace =
      [Call.refresh exampleNow, Call.update [itemY, itemX (60 * Second)],
       Call.broadcast [itemY], Call.extract [itemX (60 * Second)]] ∧
    extractsAreBroadcast
      (loopIteration specOps (exampleState ["X"] [itemX (60 * Second)]) exampleNow
        (Event.updateCmd [itemY, itemX (60 * Second)])).trace = false := by
  constructor <;> decide

/-- C2, amended: for every implementation and state of the working set, the
`pendingItems.Chan()` branch hands the result of its extraction, empty or not,
to `broadcast`; the extraction of `updateFunc` is made only when `reports` is
non-empty, after `reports` has been broadcast, it is the last call of the
iteration and its result goes to no `broadcast`. -/
theorem C2_extraction_results {σ : Type} (ops : PendingOps σ) (s : LoopState σ)
    (now now2 : Time) (fetched : List ProgressItem) :
    (loopIteration ops s now (Event.pendingChan now2)).trace =
      s.trace ++
        [Call.refresh now, Call.refresh now2,
         Call.extract (ops.ExtractExpiringItems (ops.UpdateRemainSecondBeforeExpireValues
            (ops.UpdateRemainSecondBeforeExpireValues s.pendingItems now) now2)).1,
         Call.broadcast (ops.ExtractExpiringItems (ops.UpdateRemainSecondBeforeExpireValues
            (ops.UpdateRemainSecondBeforeExpireValues s.pendingItems now) now2)).1] ∧
    (loopIteration ops s now (Event.updateCmd fetched)).trace =
      s.trace ++
        (Call.refresh now ::
          (if s.subscription.length = 0 then []
           else
             Call.update fetched ::
               (if (fetchItems s.reported fetched).1.length > 0 then
                  [Call.broadcast (fetchItems s.reported fetched).1,
                   Call.extract (ops.ExtractExpiringItems (ops.Update
                      (ops.UpdateRemainSecondBeforeExpireValues s.pendingItems now) fetched)).1]
                else []))) ∧
    (loopIteration ops s now (Event.updateInterval fetched)).trace =
      (loopIteration ops s now (Event.updateCmd fetched)).trace := by
  refine ⟨?_, ?_, rfl⟩
  · simp [loopIteration]
  · simp only [loopIteration, updateFunc, fetchItems]
    split_ifs <;> simp_all

/-- C8, evaluated at the failing input: the feed object of `X` has no
`remainSecondBeforeExpire`, so `X` is decoded with remaining time 0 although it
expires in 60 seconds. The update broadcasts `X` and extracts straight after
`Update`, with no refresh in between, so the extraction reads the decoded 0 and
leaves `X` in the working set (refreshed, `X` is expiring); at the next wake-up
`X` is extracted and broadcast a second time. -/
theorem C8_updateFunc_extracts_without_refresh :
    zeroItem.UnmarshalJSON (feedX none) = Except.ok (itemX 0) ∧
    (loopIteration specOps (exampleState [] []) exampleNow (Event.updateCmd [itemX 0])).trace =
      [Call.refresh exampleNow, Call.update [itemX 0], Call.broadcast [itemX 0],
       Call.extract []] ∧
    extractsAreRefreshed false
      (loopIteration specOps (exampleState [] []) exampleNow
        (Event.updateCmd [itemX 0])).trace = false ∧
    ((itemX 0).UpdateRemainSecondBeforeExpire exampleNow).IsExpiring fiveMinutes = true ∧
    (runLoop specOps (exampleState [] [])
        [(exampleNow, Event.updateCmd [itemX 0]),
         (exampleNow + Second, Event.pendingChan (exampleNow + Second))]).trace =
      [Call.refresh exampleNow, Call.update [itemX 0], Call.broadcast [itemX 0],
       Call.extract [],
       Call.refresh (exampleNow + Second), Call.refresh (exampleNow + Second),
       Call.extract [itemX (59 * Second)], Call.broadcast [itemX (59 * Second)]] := by
  refine ⟨rfl, ?_, ?_, ?_, ?_⟩ <;> decide

end ShaolinBenDon
